import Mathlib

/-!
Shallow embedding of the Copilot line-tracking engine from `src/extension.ts`
(`copilot-line-tracking` VS Code extension): the change classifier, the line
delta counter, the file tracking filter, the accounting engine
(`updateFileStats`, the AI-attribution block of the change handler,
`clearStats`) and the persistence decision logic (`saveStatsToFile`,
`saveStats`).

Machine numbers from the source are JavaScript numbers that stay integral
under the operations here, so they are modelled as `Int`.  Host-reported
document line counts and non-empty-line counts are naturals (`Nat`) cast
into `Int` where the engine stores them.  String operations
(`includes`, `endsWith`, `toLowerCase`, `trim`, split on newline) are modelled
by structurally recursive functions over `List Char`.
-/

namespace CopilotTracker

/-- JavaScript `String.prototype.startsWith` on character lists. -/
def listStartsWith : List Char → List Char → Bool
  | _, [] => true
  | [], _ :: _ => false
  | c :: cs, p :: ps => c = p && listStartsWith cs ps

/-- JavaScript `String.prototype.includes` on character lists: contiguous
substring occurrence; the empty pattern occurs in every string. -/
def listContains : List Char → List Char → Bool
  | [], p => p.isEmpty
  | c :: cs, p => listStartsWith (c :: cs) p || listContains cs p

/-- JavaScript `String.prototype.endsWith` on character lists. -/
def listEndsWith (s p : List Char) : Bool :=
  listStartsWith s.reverse p.reverse

/-- Whitespace characters relevant to `trim` for the strings handled here. -/
def isWhitespaceChar (c : Char) : Bool :=
  c = ' ' || c = '\t' || c = '\n' || c = '\r'

/-- JavaScript `String.prototype.trim` on character lists. -/
def listTrim (s : List Char) : List Char :=
  ((s.dropWhile isWhitespaceChar).reverse.dropWhile isWhitespaceChar).reverse

/-- ASCII lowering of one character, as `toLowerCase` acts on the
ASCII file paths handled here. -/
def charToLower (c : Char) : Char :=
  if 'A' ≤ c ∧ c ≤ 'Z' then Char.ofNat (c.toNat + 32) else c

/-- JavaScript `s.includes(pat)`. -/
def strContains (s pat : String) : Bool :=
  listContains s.data pat.data

/-- JavaScript `s.endsWith(p)`. -/
def strEndsWith (s p : String) : Bool :=
  listEndsWith s.data p.data

/-- JavaScript `s.toLowerCase()` (ASCII fragment). -/
def strToLower (s : String) : String :=
  ⟨s.data.map charToLower⟩

/-- JavaScript `s.trim()`. -/
def strTrim (s : String) : String :=
  ⟨listTrim s.data⟩

/-- JavaScript split of a text on the newline character, on character lists. -/
def splitLines : List Char → List (List Char)
  | [] => [[]]
  | c :: cs =>
    if c = '\n' then [] :: splitLines cs
    else
      match splitLines cs with
      | [] => [[c]]
      | l :: ls => (c :: l) :: ls

/-- `countNonEmptyLines` (extension.ts line 173): split on newline, keep
lines whose trimmed form is non-empty, count them. -/
def countNonEmptyLines (text : String) : Nat :=
  ((splitLines text.data).filter fun line => !(listTrim line).isEmpty).length

/-- The `reduce` in the change handler (lines 233-235): the sum of
`countNonEmptyLines` over every inserted span of the event. -/
def sumNewLines : List String → Nat
  | [] => 0
  | t :: rest => countNonEmptyLines t + sumNewLines rest

/-- One per-file record of `CopilotStats.fileStats`. -/
structure FileStat where
  totalLines : Int
  copilotLines : Int
deriving DecidableEq

/-- The `CopilotStats` interface (lines 5-10); `fileStats` is the
string-keyed object, in property-insertion order. -/
structure CopilotStats where
  totalLines : Int
  copilotLines : Int
  lastUpdated : String
  fileStats : List (String × FileStat)
deriving DecidableEq

/-- The transient classifier variables `isAcceptingSuggestion` and
`lastCopilotSuggestion` (lines 31-32). -/
structure ClassifierState where
  isAcceptingSuggestion : Bool
  lastCopilotSuggestion : Option String
deriving DecidableEq

/-- The closure state of `activate`: the stats object, the serialized
last-saved snapshot (represented by the value it serializes, since
`JSON.stringify` is injective on this data), the pending attribution
counter, and the classifier variables. -/
structure EngState where
  stats : CopilotStats
  lastSavedStats : CopilotStats
  pendingCopilotLines : Int
  classifier : ClassifierState
deriving DecidableEq

/-- Side effects of one operation: the synchronous quick-reload write
`context.globalState.update` of the copilotStats slot, the debounce
reschedule `scheduleSave()`, the durable `fs.writeFileSync` in
`saveStatsToFile`, and the update of the copilotStats slot to undefined
in `clearStats`. -/
structure Effects where
  savedGlobal : Bool
  scheduledSave : Bool
  wroteFile : Bool
  clearedGlobal : Bool
deriving DecidableEq

/-- No side effect. -/
def noEffects : Effects := ⟨false, false, false, false⟩

/-- Effects of one `saveStats()` call (lines 127-130): quick-reload write
plus debounce reschedule. -/
def saveStatsEff : Effects := ⟨true, true, false, false⟩

/-- Union of the effects of two sequenced steps. -/
def orEff (a b : Effects) : Effects :=
  ⟨a.savedGlobal || b.savedGlobal, a.scheduledSave || b.scheduledSave,
   a.wroteFile || b.wroteFile, a.clearedGlobal || b.clearedGlobal⟩

/-- `stats.fileStats[filePath]` read: first entry with the given key. -/
def lookupFS : List (String × FileStat) → String → Option FileStat
  | [], _ => none
  | e :: rest, k => if e.1 = k then some e.2 else lookupFS rest k

/-- `stats.fileStats[filePath] = v` write: replace the first entry with the
given key, or append a fresh property. -/
def setFS : List (String × FileStat) → String → FileStat → List (String × FileStat)
  | [], k, v => [(k, v)]
  | e :: rest, k, v => if e.1 = k then (k, v) :: rest else e :: setFS rest k v

/-- Sum of the per-file `totalLines`. -/
def sumTotals : List (String × FileStat) → Int
  | [] => 0
  | e :: rest => e.2.totalLines + sumTotals rest

/-- Sum of the per-file `copilotLines`. -/
def sumCopilot : List (String × FileStat) → Int
  | [] => 0
  | e :: rest => e.2.copilotLines + sumCopilot rest

/-- The default of the `copilotLineTracking.trackedExtensions` setting
(lines 72-77). -/
def defaultTrackedExtensions : List String :=
  [".js", ".jsx", ".ts", ".tsx", ".py", ".java", ".c", ".cpp", ".h", ".hpp",
   ".cs", ".go", ".rb", ".php", ".swift", ".kt", ".rs", ".dart", ".vue",
   ".html", ".css", ".scss", ".sass", ".less", ".json", ".xml", ".yaml",
   ".yml", ".md", ".sql", ".sh", ".bash", ".ps1", ".schema"]

/-- `shouldTrackFile` (lines 49-80), parametric in the configured
tracked-extension list. -/
def shouldTrackFile (trackedExtensions : List String) (filePath : String) : Bool :=
  if strContains filePath "/response_" || strContains filePath "\\response_" then false
  else if strContains filePath "/.git/" || strContains filePath "\\.git\\" then false
  else if strContains filePath "/node_modules/" || strContains filePath "\\node_modules\\" then false
  else if strEndsWith filePath ".copilot-stats.json" then false
  else trackedExtensions.any fun ext => strEndsWith (strToLower filePath) ext

/-- The `isCompleteStatement` disjunction of the change handler
(lines 217-222). -/
def isCompleteStatement (newText : String) : Bool :=
  strEndsWith (strTrim newText) ";" ||
  strEndsWith (strTrim newText) "\x7d" ||
  strEndsWith (strTrim newText) ")" ||
  strEndsWith (strTrim newText) "]" ||
  strEndsWith (strTrim newText) "\"" ||
  strEndsWith (strTrim newText) "\x27"

/-- The body of the `some`-callback of the change handler (lines 200-225),
acting on one inserted span: returns the classification together with the
updated classifier variables.  The second branch reflects the JavaScript
truthiness test `lastCopilotSuggestion && newText.includes(...)`: an empty
recorded suggestion is falsy and skips the branch. -/
def classifySpan (cs : ClassifierState) (newText : String) : Bool × ClassifierState :=
  if cs.isAcceptingSuggestion then
    (true, { cs with isAcceptingSuggestion := false })
  else
    match cs.lastCopilotSuggestion with
    | some t =>
      if !t.data.isEmpty && strContains newText t then
        (true, { cs with lastCopilotSuggestion := none })
      else
        (strContains newText "\n" || isCompleteStatement newText, cs)
    | none => (strContains newText "\n" || isCompleteStatement newText, cs)

/-- `event.contentChanges.some(...)` with the stateful callback: evaluate
spans left to right, stop at the first `true`. -/
def someClassify : ClassifierState → List String → Bool × ClassifierState
  | cs, [] => (false, cs)
  | cs, t :: rest =>
    let r := classifySpan cs t
    if r.1 then (true, r.2) else someClassify r.2 rest

/-- The core of `updateFileStats` (lines 141-169) once the tracking check
passed: ensure the record exists, and when the stored total differs from
the host-reported line count, update totals, consume pending attribution
on a zero-to-positive transition, clamp, refresh `lastUpdated` and call
`saveStats()`. -/
def updateFileStatsCore (s : EngState) (filePath : String) (n : Int) (now : String) :
    EngState × Effects :=
  let fs1 := if (lookupFS s.stats.fileStats filePath).isNone
             then setFS s.stats.fileStats filePath ⟨0, 0⟩
             else s.stats.fileStats
  let rec0 := (lookupFS fs1 filePath).getD ⟨0, 0⟩
  if rec0.totalLines = n then
    ({ s with stats := { s.stats with fileStats := fs1 } }, noEffects)
  else
    let aggT := s.stats.totalLines - rec0.totalLines + n
    let rec2 : FileStat :=
      if rec0.totalLines = 0 ∧ 0 < s.pendingCopilotLines
      then ⟨n, min s.pendingCopilotLines n⟩
      else ⟨n, rec0.copilotLines⟩
    let aggC1 :=
      if rec0.totalLines = 0 ∧ 0 < s.pendingCopilotLines
      then s.stats.copilotLines + min s.pendingCopilotLines n
      else s.stats.copilotLines
    let pending1 :=
      if rec0.totalLines = 0 ∧ 0 < s.pendingCopilotLines
      then 0
      else s.pendingCopilotLines
    let rec3 : FileStat := if n < rec2.copilotLines then ⟨n, n⟩ else rec2
    let aggC2 := if n < rec2.copilotLines then aggC1 - (rec2.copilotLines - n) else aggC1
    ({ s with
        stats := { totalLines := aggT, copilotLines := aggC2, lastUpdated := now,
                   fileStats := setFS fs1 filePath rec3 },
        pendingCopilotLines := pending1 },
     saveStatsEff)

/-- `updateFileStats` (lines 133-170): the tracking gate followed by the
core; `lineCount` is the host-reported `document.lineCount`. -/
def updateFileStats (trackedExtensions : List String) (s : EngState)
    (filePath : String) (lineCount : Nat) (now : String) : EngState × Effects :=
  if shouldTrackFile trackedExtensions filePath then
    updateFileStatsCore s filePath (lineCount : Int) now
  else (s, noEffects)

/-- The AI-attribution block of the change handler (lines 227-255), run when
the classification returned `true`, with `newLines` the summed non-empty
line count of the event: ensure the record exists; with a zero stored total
accumulate into `pendingCopilotLines`, otherwise commit only when the
candidate does not exceed the stored total. -/
def applyAiLines (s : EngState) (filePath : String) (newLines : Int) (now : String) :
    EngState × Effects :=
  let fs1 := if (lookupFS s.stats.fileStats filePath).isNone
             then setFS s.stats.fileStats filePath ⟨0, 0⟩
             else s.stats.fileStats
  let s1 : EngState := { s with stats := { s.stats with fileStats := fs1 } }
  if 0 < newLines then
    let rec0 := (lookupFS fs1 filePath).getD ⟨0, 0⟩
    if rec0.totalLines = 0 then
      ({ s1 with pendingCopilotLines := s1.pendingCopilotLines + newLines }, noEffects)
    else
      if rec0.copilotLines + newLines ≤ rec0.totalLines then
        ({ s1 with stats := { s1.stats with
              copilotLines := s1.stats.copilotLines + newLines,
              lastUpdated := now,
              fileStats := setFS fs1 filePath ⟨rec0.totalLines, rec0.copilotLines + newLines⟩ } },
         saveStatsEff)
      else (s1, noEffects)
  else (s1, noEffects)

/-- The `onDidChangeTextDocument` handler (lines 190-258): tracking gate,
stateful span classification, the AI-attribution block when some span
classified as AI, then `updateFileStats` on the post-edit document. -/
def changeHandler (trackedExtensions : List String) (s : EngState) (filePath : String)
    (contentChanges : List String) (lineCount : Nat) (now : String) : EngState × Effects :=
  if shouldTrackFile trackedExtensions filePath then
    let cl := someClassify s.classifier contentChanges
    let s1 : EngState := { s with classifier := cl.2 }
    let step :=
      if cl.1 then applyAiLines s1 filePath (sumNewLines contentChanges : Int) now
      else (s1, noEffects)
    let step2 := updateFileStats trackedExtensions step.1 filePath lineCount now
    (step2.1, orEff step.2 step2.2)
  else (s, noEffects)

/-- `saveStatsToFile` (lines 92-116): skip when no workspace root is
resolvable, skip when the serialized stats equal the last saved serialized
stats, otherwise write and remember what was written.  The returned `Bool`
records whether `fs.writeFileSync` ran. -/
def saveStatsToFile (hasRoot : Bool) (s : EngState) : EngState × Bool :=
  if !hasRoot then (s, false)
  else if s.stats = s.lastSavedStats then (s, false)
  else ({ s with lastSavedStats := s.stats }, true)

/-- `clearStats` (lines 36-46): reset the stats object, set
`lastSavedStats` to the serialization of the freshly cleared stats, clear
the quick-reload slot, then call `saveStatsToFile`. -/
def clearStats (hasRoot : Bool) (s : EngState) (now : String) : EngState × Effects :=
  let stats0 : CopilotStats := { totalLines := 0, copilotLines := 0, lastUpdated := now,
                                 fileStats := [] }
  let s1 : EngState := { s with stats := stats0, lastSavedStats := stats0 }
  let r := saveStatsToFile hasRoot s1
  (r.1, ⟨false, false, r.2, true⟩)

/-- The initial state of `activate` when no stored stats exist
(lines 22-33). -/
def initState (now : String) : EngState :=
  { stats := { totalLines := 0, copilotLines := 0, lastUpdated := now, fileStats := [] },
    lastSavedStats := { totalLines := 0, copilotLines := 0, lastUpdated := now, fileStats := [] },
    pendingCopilotLines := 0,
    classifier := { isAcceptingSuggestion := false, lastCopilotSuggestion := none } }

/-- Every record of a per-file map satisfies `0 ≤ copilotLines ≤ totalLines`. -/
def EntryBounds (m : List (String × FileStat)) : Prop :=
  ∀ e ∈ m, 0 ≤ (e : String × FileStat).2.copilotLines ∧ e.2.copilotLines ≤ e.2.totalLines

instance (m : List (String × FileStat)) : Decidable (EntryBounds m) := by
  unfold EntryBounds; infer_instance

/-- The clamp invariant of the spec: every per-file record and the
aggregate satisfy `0 ≤ copilotLines ≤ totalLines`. -/
def BoundsInv (s : EngState) : Prop :=
  EntryBounds s.stats.fileStats ∧
  0 ≤ s.stats.copilotLines ∧ s.stats.copilotLines ≤ s.stats.totalLines

/-- The sum-coherence invariant of the spec: the aggregate counters equal
the sums of the per-file counters. -/
def SumsInv (s : EngState) : Prop :=
  s.stats.totalLines = sumTotals s.stats.fileStats ∧
  s.stats.copilotLines = sumCopilot s.stats.fileStats

instance (s : EngState) : Decidable (BoundsInv s) := by
  unfold BoundsInv; infer_instance

instance (s : EngState) : Decidable (SumsInv s) := by
  unfold SumsInv; infer_instance

/-! ## General lemmas about the embedded map operations -/

theorem lookupFS_setFS_self (m : List (String × FileStat)) (k : String) (v : FileStat) :
    lookupFS (setFS m k v) k = some v := by
  induction m with
  | nil => simp [setFS, lookupFS]
  | cons e rest ih =>
    by_cases h : e.1 = k <;> simp [setFS, lookupFS, h, ih]

theorem lookupFS_setFS_ne {m : List (String × FileStat)} {a b : String} (v : FileStat)
    (hne : ¬ b = a) : lookupFS (setFS m a v) b = lookupFS m b := by
  have hab : ¬ a = b := fun h => hne h.symm
  induction m with
  | nil => simp [setFS, lookupFS, hab]
  | cons e rest ih =>
    by_cases he : e.1 = a
    · have heb : ¬ e.1 = b := fun h => hne (h.symm.trans he)
      simp only [setFS, he, if_pos, lookupFS]
      simp [hab]
    · simp only [setFS, he, if_neg, not_false_iff, lookupFS, ih]

theorem lookupFS_mem {m : List (String × FileStat)} {k : String} {w : FileStat}
    (h : lookupFS m k = some w) : (k, w) ∈ m := by
  induction m with
  | nil => simp [lookupFS] at h
  | cons e rest ih =>
    by_cases he : e.1 = k
    · simp only [lookupFS, he, if_pos] at h
      cases h
      have hke : (k, e.2) = e := by cases e; simp_all
      rw [hke]
      exact List.mem_cons_self e rest
    · simp only [lookupFS, he, if_neg, not_false_iff] at h
      right
      exact ih h

theorem mem_setFS {m : List (String × FileStat)} {k : String} {v : FileStat}
    {e : String × FileStat} (h : e ∈ setFS m k v) : e = (k, v) ∨ e ∈ m := by
  induction m with
  | nil => simp [setFS] at h; simp [h]
  | cons x rest ih =>
    by_cases hx : x.1 = k
    · simp only [setFS, hx, if_pos] at h
      rcases List.mem_cons.1 h with h1 | h1
      · left; exact h1
      · right; exact List.mem_cons.2 (Or.inr h1)
    · simp only [setFS, hx, if_neg, not_false_iff] at h
      rcases List.mem_cons.1 h with h1 | h1
      · right; exact List.mem_cons.2 (Or.inl h1)
      · rcases ih h1 with h2 | h2
        · left; exact h2
        · right; exact List.mem_cons.2 (Or.inr h2)

theorem sumTotals_setFS_none {m : List (String × FileStat)} {k : String}
    (h : lookupFS m k = none) (v : FileStat) :
    sumTotals (setFS m k v) = sumTotals m + v.totalLines := by
  induction m with
  | nil => simp [setFS, sumTotals]
  | cons e rest ih =>
    by_cases he : e.1 = k
    · simp [lookupFS, he] at h
    · simp only [lookupFS, he, if_neg, not_false_iff] at h
      simp only [setFS, he, if_neg, not_false_iff, sumTotals, ih h]
      ring

theorem sumCopilot_setFS_none {m : List (String × FileStat)} {k : String}
    (h : lookupFS m k = none) (v : FileStat) :
    sumCopilot (setFS m k v) = sumCopilot m + v.copilotLines := by
  induction m with
  | nil => simp [setFS, sumCopilot]
  | cons e rest ih =>
    by_cases he : e.1 = k
    · simp [lookupFS, he] at h
    · simp only [lookupFS, he, if_neg, not_false_iff] at h
      simp only [setFS, he, if_neg, not_false_iff, sumCopilot, ih h]
      ring

theorem sumTotals_setFS_some {m : List (String × FileStat)} {k : String} {w : FileStat}
    (h : lookupFS m k = some w) (v : FileStat) :
    sumTotals (setFS m k v) = sumTotals m - w.totalLines + v.totalLines := by
  induction m with
  | nil => simp [lookupFS] at h
  | cons e rest ih =>
    by_cases he : e.1 = k
    · simp only [lookupFS, he, if_pos] at h
      cases h
      simp only [setFS, he, if_pos, sumTotals]
      ring
    · simp only [lookupFS, he, if_neg, not_false_iff] at h
      simp only [setFS, he, if_neg, not_false_iff, sumTotals, ih h]
      ring

theorem sumCopilot_setFS_some {m : List (String × FileStat)} {k : String} {w : FileStat}
    (h : lookupFS m k = some w) (v : FileStat) :
    sumCopilot (setFS m k v) = sumCopilot m - w.copilotLines + v.copilotLines := by
  induction m with
  | nil => simp [lookupFS] at h
  | cons e rest ih =>
    by_cases he : e.1 = k
    · simp only [lookupFS, he, if_pos] at h
      cases h
      simp only [setFS, he, if_pos, sumCopilot]
      ring
    · simp only [lookupFS, he, if_neg, not_false_iff] at h
      simp only [setFS, he, if_neg, not_false_iff, sumCopilot, ih h]
      ring

theorem sums_bounded {m : List (String × FileStat)} (h : EntryBounds m) :
    0 ≤ sumCopilot m ∧ sumCopilot m ≤ sumTotals m := by
  induction m with
  | nil => simp [sumCopilot, sumTotals]
  | cons e rest ih =>
    have h1 := h e (List.mem_cons_self e rest)
    have h2 := ih fun x hx => h x (List.mem_cons.2 (Or.inr hx))
    simp only [sumCopilot, sumTotals]
    omega

theorem entryBounds_setFS {m : List (String × FileStat)} {k : String} {v : FileStat}
    (hm : EntryBounds m) (hv : 0 ≤ v.copilotLines ∧ v.copilotLines ≤ v.totalLines) :
    EntryBounds (setFS m k v) := by
  intro e he
  rcases mem_setFS he with h | h
  · cases h; exact hv
  · exact hm e h

/-! ## Characterization and preservation lemmas for the engine operations -/

theorem core_noop_existing (s : EngState) (path now : String) (n : Int) (r0 : FileStat)
    (h : lookupFS s.stats.fileStats path = some r0) (he : r0.totalLines = n) :
    updateFileStatsCore s path n now = (s, noEffects) := by
  unfold updateFileStatsCore
  simp only [h, Option.isNone_some, Bool.false_eq_true, if_false, Option.getD_some, he,
    if_pos]

theorem core_total_after (s : EngState) (path now : String) (n : Int) :
    ∃ c, lookupFS (updateFileStatsCore s path n now).1.stats.fileStats path
           = some ⟨n, c⟩ := by
  unfold updateFileStatsCore
  cases h0 : lookupFS s.stats.fileStats path with
  | none =>
    simp only [h0, Option.isNone_none, if_true, lookupFS_setFS_self, Option.getD_some]
    split_ifs with h1
    · exact ⟨0, by rw [lookupFS_setFS_self, ← h1]⟩
    all_goals exact ⟨_, by rw [lookupFS_setFS_self]⟩
  | some w =>
    simp only [h0, Option.isNone_some, Bool.false_eq_true, if_false, Option.getD_some]
    split_ifs with h1
    · exact ⟨w.copilotLines, by rw [h0, ← h1]⟩
    all_goals exact ⟨_, by rw [lookupFS_setFS_self]⟩

theorem updateFileStats_noop (cfg : List String) (s : EngState) (path : String)
    (lineCount : Nat) (now : String) (htr : shouldTrackFile cfg path = true)
    (r0 : FileStat) (hfind : lookupFS s.stats.fileStats path = some r0)
    (he : r0.totalLines = (lineCount : Int)) :
    updateFileStats cfg s path lineCount now = (s, noEffects) := by
  unfold updateFileStats
  simp only [htr, if_true]
  exact core_noop_existing s path now (lineCount : Int) r0 hfind he

theorem core_preserves (s : EngState) (path now : String) (n : Int) (hn : 0 ≤ n)
    (hmem : EntryBounds s.stats.fileStats) (hs : SumsInv s) :
    EntryBounds (updateFileStatsCore s path n now).1.stats.fileStats ∧
    SumsInv (updateFileStatsCore s path n now).1 := by
  obtain ⟨hsT, hsC⟩ := hs
  unfold updateFileStatsCore SumsInv
  cases h0 : lookupFS s.stats.fileStats path with
  | none =>
    have hb0 : EntryBounds (setFS s.stats.fileStats path ⟨0, 0⟩) :=
      entryBounds_setFS hmem (by constructor <;> simp)
    have hlk : lookupFS (setFS s.stats.fileStats path ⟨0, 0⟩) path = some ⟨0, 0⟩ :=
      lookupFS_setFS_self _ _ _
    have hT1 : sumTotals (setFS s.stats.fileStats path ⟨0, 0⟩)
        = sumTotals s.stats.fileStats := by
      rw [sumTotals_setFS_none h0]; simp
    have hC1 : sumCopilot (setFS s.stats.fileStats path ⟨0, 0⟩)
        = sumCopilot s.stats.fileStats := by
      rw [sumCopilot_setFS_none h0]; simp
    simp only [h0, Option.isNone_none, if_true, hlk, Option.getD_some]
    split_ifs with h1 h2 h3 h4
    · exact ⟨hb0, by dsimp only; omega, by dsimp only; omega⟩
    · dsimp only at h3
      have := min_le_right s.pendingCopilotLines n
      omega
    · refine ⟨entryBounds_setFS hb0 ⟨?_, ?_⟩, ?_, ?_⟩
      · dsimp only; exact le_min (le_of_lt h2.2) hn
      · dsimp only; exact min_le_right _ _
      · dsimp only
        rw [sumTotals_setFS_some hlk, hT1]
        dsimp only
        omega
      · dsimp only
        rw [sumCopilot_setFS_some hlk, hC1]
        dsimp only
        omega
    · dsimp only at h4
      omega
    · refine ⟨entryBounds_setFS hb0 ⟨by dsimp only; omega, by dsimp only; omega⟩, ?_, ?_⟩
      · dsimp only
        rw [sumTotals_setFS_some hlk, hT1]
        dsimp only
        omega
      · dsimp only
        rw [sumCopilot_setFS_some hlk, hC1]
        dsimp only
        omega
  | some w =>
    have hwb := hmem _ (lookupFS_mem h0)
    dsimp only at hwb
    simp only [h0, Option.isNone_some, Bool.false_eq_true, if_false, Option.getD_some]
    split_ifs with h1 h2 h3 h4
    · exact ⟨hmem, hsT, hsC⟩
    · dsimp only at h3
      have := min_le_right s.pendingCopilotLines n
      omega
    · have hwc : w.copilotLines = 0 := by omega
      refine ⟨entryBounds_setFS hmem ⟨?_, ?_⟩, ?_, ?_⟩
      · dsimp only; exact le_min (le_of_lt h2.2) hn
      · dsimp only; exact min_le_right _ _
      · dsimp only
        rw [sumTotals_setFS_some h0]
        dsimp only
        omega
      · dsimp only
        rw [sumCopilot_setFS_some h0]
        dsimp only
        omega
    · dsimp only at h4
      refine ⟨entryBounds_setFS hmem ⟨by dsimp only; omega, by dsimp only; omega⟩, ?_, ?_⟩
      · dsimp only
        rw [sumTotals_setFS_some h0]
        dsimp only
        omega
      · dsimp only
        rw [sumCopilot_setFS_some h0]
        dsimp only
        omega
    · dsimp only at h4
      refine ⟨entryBounds_setFS hmem ⟨by dsimp only; omega, by dsimp only; omega⟩, ?_, ?_⟩
      · dsimp only
        rw [sumTotals_setFS_some h0]
        dsimp only
        omega
      · dsimp only
        rw [sumCopilot_setFS_some h0]
        dsimp only
        omega

theorem applyAiLines_preserves (s : EngState) (path now : String) (k : Int)
    (hmem : EntryBounds s.stats.fileStats) (hs : SumsInv s) :
    EntryBounds (applyAiLines s path k now).1.stats.fileStats ∧
    SumsInv (applyAiLines s path k now).1 := by
  obtain ⟨hsT, hsC⟩ := hs
  unfold applyAiLines SumsInv
  cases h0 : lookupFS s.stats.fileStats path with
  | none =>
    have hb0 : EntryBounds (setFS s.stats.fileStats path ⟨0, 0⟩) :=
      entryBounds_setFS hmem (by constructor <;> simp)
    have hlk : lookupFS (setFS s.stats.fileStats path ⟨0, 0⟩) path = some ⟨0, 0⟩ :=
      lookupFS_setFS_self _ _ _
    have hT1 : sumTotals (setFS s.stats.fileStats path ⟨0, 0⟩)
        = sumTotals s.stats.fileStats := by
      rw [sumTotals_setFS_none h0]; simp
    have hC1 : sumCopilot (setFS s.stats.fileStats path ⟨0, 0⟩)
        = sumCopilot s.stats.fileStats := by
      rw [sumCopilot_setFS_none h0]; simp
    simp only [h0, Option.isNone_none, if_true, hlk, Option.getD_some]
    split_ifs with h1
    · exact ⟨hb0, by dsimp only; omega, by dsimp only; omega⟩
    · exact ⟨hb0, by dsimp only; omega, by dsimp only; omega⟩
  | some w =>
    have hwb := hmem _ (lookupFS_mem h0)
    dsimp only at hwb
    simp only [h0, Option.isNone_some, Bool.false_eq_true, if_false, Option.getD_some]
    split_ifs with h1 h2 h3
    · exact ⟨hmem, hsT, hsC⟩
    · refine ⟨entryBounds_setFS hmem ⟨by dsimp only; omega, by dsimp only; omega⟩, ?_, ?_⟩
      · dsimp only
        rw [sumTotals_setFS_some h0]
        dsimp only
        omega
      · dsimp only
        rw [sumCopilot_setFS_some h0]
        dsimp only
        omega
    · exact ⟨hmem, hsT, hsC⟩
    · exact ⟨hmem, hsT, hsC⟩

theorem updateFileStats_preserves (cfg : List String) (s : EngState) (path : String)
    (lineCount : Nat) (now : String)
    (hmem : EntryBounds s.stats.fileStats) (hs : SumsInv s) :
    EntryBounds (updateFileStats cfg s path lineCount now).1.stats.fileStats ∧
    SumsInv (updateFileStats cfg s path lineCount now).1 := by
  unfold updateFileStats
  split_ifs with htr
  · exact core_preserves s path now (lineCount : Int) (Int.natCast_nonneg lineCount) hmem hs
  · exact ⟨hmem, hs⟩

theorem changeHandler_preserves (cfg : List String) (s : EngState) (path : String)
    (changes : List String) (lineCount : Nat) (now : String)
    (hmem : EntryBounds s.stats.fileStats) (hs : SumsInv s) :
    EntryBounds (changeHandler cfg s path changes lineCount now).1.stats.fileStats ∧
    SumsInv (changeHandler cfg s path changes lineCount now).1 := by
  unfold changeHandler
  split_ifs with htr
  · cases hcl : (someClassify s.classifier changes).1 with
    | true =>
      simp only [hcl, if_true]
      have h1 := applyAiLines_preserves
        { s with classifier := (someClassify s.classifier changes).2 } path now
        ((sumNewLines changes : Nat) : Int) hmem hs
      exact updateFileStats_preserves cfg _ path lineCount now h1.1 h1.2
    | false =>
      simp only [hcl, Bool.false_eq_true, if_false]
      exact updateFileStats_preserves cfg _ path lineCount now hmem hs
  · exact ⟨hmem, hs⟩

theorem clearStats_preserves (hasRoot : Bool) (s : EngState) (now : String) :
    EntryBounds (clearStats hasRoot s now).1.stats.fileStats ∧
    SumsInv (clearStats hasRoot s now).1 := by
  unfold clearStats saveStatsToFile
  dsimp only
  split_ifs with h1 h2 <;>
    exact ⟨by intro e he; simp at he, by constructor <;> rfl⟩

theorem boundsInv_of (r : EngState) (he : EntryBounds r.stats.fileStats) (hs : SumsInv r) :
    BoundsInv r := by
  obtain ⟨h1, h2⟩ := sums_bounded he
  exact ⟨he, by rw [hs.2]; exact h1, by rw [hs.1, hs.2]; exact h2⟩

theorem someClassify_accepting (cs : ClassifierState) (t : String) (rest : List String)
    (hacc : cs.isAcceptingSuggestion = true) :
    someClassify cs (t :: rest) = (true, { cs with isAcceptingSuggestion := false }) := by
  unfold someClassify classifySpan
  rw [hacc]
  simp

theorem applyAiLines_commit (s : EngState) (path now : String) (k t c : Int)
    (hfind : lookupFS s.stats.fileStats path = some ⟨t, c⟩)
    (hk : 0 < k) (ht : ¬ t = 0) (hle : c + k ≤ t) :
    applyAiLines s path k now
      = ({ s with stats := { s.stats with
            copilotLines := s.stats.copilotLines + k,
            lastUpdated := now,
            fileStats := setFS s.stats.fileStats path ⟨t, c + k⟩ } },
         saveStatsEff) := by
  unfold applyAiLines
  simp only [hfind, Option.isNone_some, Bool.false_eq_true, if_false, Option.getD_some]
  rw [if_pos hk, if_neg ht, if_pos hle]

theorem core_pending_consume (s : EngState) (path now : String) (n : Int)
    (hfind : lookupFS s.stats.fileStats path = none ∨
             lookupFS s.stats.fileStats path = some ⟨0, 0⟩)
    (hp : 0 < s.pendingCopilotLines) (hn : 0 < n) :
    lookupFS (updateFileStatsCore s path n now).1.stats.fileStats path
      = some ⟨n, min s.pendingCopilotLines n⟩ ∧
    (updateFileStatsCore s path n now).1.pendingCopilotLines = 0 := by
  unfold updateFileStatsCore
  rcases hfind with h0 | h0
  · simp only [h0, Option.isNone_none, if_true, lookupFS_setFS_self, Option.getD_some]
    split_ifs with h1 h2 h3 h4
    · omega
    · dsimp only at h3
      have := min_le_right s.pendingCopilotLines n
      omega
    · exact ⟨lookupFS_setFS_self _ _ _, rfl⟩
    · exact absurd ⟨trivial, hp⟩ h2
    · exact absurd ⟨trivial, hp⟩ h2
  · simp only [h0, Option.isNone_some, Bool.false_eq_true, if_false, Option.getD_some]
    split_ifs with h1 h2 h3 h4
    · omega
    · dsimp only at h3
      have := min_le_right s.pendingCopilotLines n
      omega
    · exact ⟨lookupFS_setFS_self _ _ _, rfl⟩
    · exact absurd ⟨trivial, hp⟩ h2
    · exact absurd ⟨trivial, hp⟩ h2

theorem shouldTrackFile_excluded (cfg : List String) (path : String)
    (h : strContains path "/node_modules/" = true ∨
         strContains path "\\node_modules\\" = true ∨
         strEndsWith path ".copilot-stats.json" = true) :
    shouldTrackFile cfg path = false := by
  unfold shouldTrackFile
  split_ifs with a b c d
  · rfl
  · rfl
  · rfl
  · rfl
  · rcases h with h | h | h
    · simp [h] at c
    · simp [h] at c
    · exact absurd h d

/-! ## Claim C1: the clamp invariant is preserved by every mutating operation -/

/-- State exhibiting that bounds alone are not inductive: the per-file and
aggregate bounds hold, but the aggregate is not the sum of the per-file
counters. -/
def c1CexState : EngState :=
  { stats := { totalLines := 10, copilotLines := 0, lastUpdated := "t0",
               fileStats := [("/a.ts", ⟨10, 8⟩)] },
    lastSavedStats := { totalLines := 0, copilotLines := 0, lastUpdated := "t0",
                        fileStats := [] },
    pendingCopilotLines := 0,
    classifier := { isAcceptingSuggestion := false, lastCopilotSuggestion := none } }

/-- Claim C1, counterexample to the claim as stated: the bounds invariant
`0 ≤ copilotLines ≤ totalLines` holds for every record and the aggregate of
`c1CexState`, yet after one `updateFileStats` call it fails (the aggregate
copilotLines becomes -3), because the inductive step also needs the
aggregate-equals-sums invariant which `c1CexState` violates. -/
theorem claim_c1_counterexample :
    BoundsInv c1CexState ∧
    ¬ BoundsInv (updateFileStats defaultTrackedExtensions c1CexState "/a.ts" 5 "t1").1 := by
  decide

/-- Claim C1 (amended): for every per-file record and for the aggregate,
after every completed mutating operation (the change handler, updateFileStats,
clearStats), `0 ≤ copilotLines ≤ totalLines` holds, assuming that in the
starting state it held and that the aggregate counters equalled the sums of
the per-file counters. -/
theorem claim_c1_bounds_preserved (cfg : List String) (s : EngState)
    (path now : String) (changes : List String) (lineCount : Nat) (hasRoot : Bool)
    (hb : BoundsInv s) (hs : SumsInv s) :
    BoundsInv (changeHandler cfg s path changes lineCount now).1 ∧
    BoundsInv (updateFileStats cfg s path lineCount now).1 ∧
    BoundsInv (clearStats hasRoot s now).1 := by
  obtain ⟨h1, h2⟩ := changeHandler_preserves cfg s path changes lineCount now hb.1 hs
  obtain ⟨h3, h4⟩ := updateFileStats_preserves cfg s path lineCount now hb.1 hs
  obtain ⟨h5, h6⟩ := clearStats_preserves hasRoot s now
  exact ⟨boundsInv_of _ h1 h2, boundsInv_of _ h3 h4, boundsInv_of _ h5 h6⟩

/-- Claim C1, witness: the amended theorem applied to the initial state and a
concrete tracked edit. -/
theorem claim_c1_witness :
    BoundsInv (changeHandler defaultTrackedExtensions (initState "t0") "/a.ts"
      ["x;"] 3 "t1").1 ∧
    BoundsInv (updateFileStats defaultTrackedExtensions (initState "t0") "/a.ts" 3 "t1").1 ∧
    BoundsInv (clearStats true (initState "t0") "t1").1 :=
  claim_c1_bounds_preserved defaultTrackedExtensions (initState "t0") "/a.ts" "t1"
    ["x;"] 3 true (by decide) (by decide)

/-! ## Claim C2: clearStats and the forced durable write -/

/-- Claim C2 (code bug): `clearStats` resets the stats object, but the
immediately following `saveStatsToFile` call never writes, for any state and
whether or not a workspace root exists, because `lastSavedStats` was just set
to the serialization of the freshly cleared stats, so the unchanged-content
check always short-circuits; `pendingCopilotLines` is also left untouched.
This contradicts the claim that `clearAll` always performs an immediate
durable snapshot write. -/
theorem claim_c2_clear_never_writes (hasRoot : Bool) (s : EngState) (now : String) :
    (clearStats hasRoot s now).1.stats
      = { totalLines := 0, copilotLines := 0, lastUpdated := now, fileStats := [] } ∧
    (clearStats hasRoot s now).2.wroteFile = false ∧
    (clearStats hasRoot s now).1.pendingCopilotLines = s.pendingCopilotLines := by
  unfold clearStats saveStatsToFile
  dsimp only
  split_ifs with h1 h2
  · exact ⟨rfl, rfl, rfl⟩
  · exact ⟨rfl, rfl, rfl⟩
  · exact absurd rfl h2

/-! ## Claim C3: pending attribution on a zero-to-positive total transition -/

/-- State with one tracked file of stored total 0 and pending attribution 10. -/
def c3State : EngState :=
  { stats := { totalLines := 0, copilotLines := 0, lastUpdated := "t0",
               fileStats := [("/a.ts", ⟨0, 0⟩)] },
    lastSavedStats := { totalLines := 0, copilotLines := 0, lastUpdated := "t0",
                        fileStats := [] },
    pendingCopilotLines := 10,
    classifier := { isAcceptingSuggestion := false, lastCopilotSuggestion := none } }

/-- Claim C3, counterexample to the claim as stated: with pending 10 and
newTotal 4, take = min(10, 4) = 4, the claim asserts a residual pending of
10 - 4 = 6, but the code resets the pending counter to 0 outright. -/
theorem claim_c3_counterexample :
    (updateFileStats defaultTrackedExtensions c3State "/a.ts" 4 "t1").1.pendingCopilotLines
      = 0 ∧
    ¬ ((updateFileStats defaultTrackedExtensions c3State "/a.ts" 4 "t1").1.pendingCopilotLines
        = c3State.pendingCopilotLines
            - min c3State.pendingCopilotLines ((4 : Nat) : Int)) := by
  decide

/-- Claim C3 (amended): when updateTotals runs on a tracked file whose stored
total transitions from 0 to a positive newTotal while PendingAttribution is
positive, it sets the per-file copilotLines to take = min(PendingAttribution,
newTotal), adds take to the aggregate copilotLines, adds newTotal to the
aggregate totalLines, refreshes lastUpdated, and resets PendingAttribution to
0 — the entire pending amount is consumed, leaving no residual even when
pending exceeds newTotal. -/
theorem claim_c3_pending_fully_consumed (cfg : List String) (s : EngState)
    (path now : String) (c : Int) (n : Nat)
    (htr : shouldTrackFile cfg path = true)
    (hfind : lookupFS s.stats.fileStats path = some ⟨0, c⟩)
    (hp : 0 < s.pendingCopilotLines) (hn : 0 < n) :
    lookupFS (updateFileStats cfg s path n now).1.stats.fileStats path
      = some ⟨(n : Int), min s.pendingCopilotLines (n : Int)⟩ ∧
    (updateFileStats cfg s path n now).1.stats.copilotLines
      = s.stats.copilotLines + min s.pendingCopilotLines (n : Int) ∧
    (updateFileStats cfg s path n now).1.stats.totalLines
      = s.stats.totalLines + (n : Int) ∧
    (updateFileStats cfg s path n now).1.pendingCopilotLines = 0 ∧
    (updateFileStats cfg s path n now).1.stats.lastUpdated = now := by
  have hn2 : (0 : Int) < (n : Int) := by exact_mod_cast hn
  unfold updateFileStats updateFileStatsCore
  simp only [htr, if_true, hfind, Option.isNone_some, Bool.false_eq_true, if_false,
    Option.getD_some]
  split_ifs with h1 h2 h3 h4
  · omega
  · dsimp only at h3
    have := min_le_right s.pendingCopilotLines (n : Int)
    omega
  · refine ⟨?_, ?_, ?_, ?_, ?_⟩
    · exact lookupFS_setFS_self _ _ _
    · rfl
    · dsimp only
      omega
    · rfl
    · rfl
  · exact absurd ⟨trivial, hp⟩ h2
  · exact absurd ⟨trivial, hp⟩ h2

/-- Claim C3, witness: pending 10 consumed by a 0 to 4 transition gives the
record total 4, copilot 4, and pending 0. -/
theorem claim_c3_witness :
    lookupFS (updateFileStats defaultTrackedExtensions c3State "/a.ts" 4
        "t1").1.stats.fileStats "/a.ts" = some ⟨4, 4⟩ ∧
    (updateFileStats defaultTrackedExtensions c3State "/a.ts" 4 "t1").1.stats.copilotLines
      = c3State.stats.copilotLines + 4 ∧
    (updateFileStats defaultTrackedExtensions c3State "/a.ts" 4 "t1").1.stats.totalLines
      = c3State.stats.totalLines + 4 ∧
    (updateFileStats defaultTrackedExtensions c3State "/a.ts" 4 "t1").1.pendingCopilotLines
      = 0 ∧
    (updateFileStats defaultTrackedExtensions c3State "/a.ts" 4 "t1").1.stats.lastUpdated
      = "t1" := by
  exact claim_c3_pending_fully_consumed defaultTrackedExtensions c3State "/a.ts" "t1" 0 4
    (by decide) (by decide) (by decide) (by decide)

/-! ## Claim C4: over-attribution on a file with positive total is dropped -/

/-- Claim C4: for every file record with positive stored total, applying an
AI-attributed line count whose candidate copilotLines + count exceeds the
stored total leaves the entire engine state unchanged (per-file counters,
aggregate counters, pending attribution, lastUpdated, classifier state) and
triggers no persistence effect. -/
theorem claim_c4_overflow_rejected (s : EngState) (path now : String) (t c k : Int)
    (hfind : lookupFS s.stats.fileStats path = some ⟨t, c⟩)
    (ht : 0 < t) (hover : t < c + k) :
    applyAiLines s path k now = (s, noEffects) := by
  unfold applyAiLines
  simp only [hfind, Option.isNone_some, Bool.false_eq_true, if_false, Option.getD_some]
  split_ifs with h1 h2 h3
  · omega
  · omega
  · rfl
  · rfl

/-- State with per-file record total 5, copilot 5, as in the claim. -/
def c4State : EngState :=
  { stats := { totalLines := 5, copilotLines := 5, lastUpdated := "t0",
               fileStats := [("f", ⟨5, 5⟩)] },
    lastSavedStats := { totalLines := 0, copilotLines := 0, lastUpdated := "t0",
                        fileStats := [] },
    pendingCopilotLines := 0,
    classifier := { isAcceptingSuggestion := false, lastCopilotSuggestion := none } }

/-- Claim C4, witness: from per-file state total 5 copilot 5, applying 2 AI
lines changes nothing (candidate 7 exceeds total 5). -/
theorem claim_c4_witness :
    applyAiLines c4State "f" 2 "t1" = (c4State, noEffects) :=
  claim_c4_overflow_rejected c4State "f" "t1" 5 5 2 (by decide) (by decide) (by decide)

/-! ## Claim C5: the per-span classification priority -/

/-- Claim C5, counterexample to the claim as stated: with
`lastOfferedSuggestionText` set to the empty string (a reachable value, since
the provider records the current line text) and an inserted span that contains
it (every string contains the empty string), the claim requires an
AI classification with the suggestion cleared, but the code treats the empty
recorded suggestion as unset (JavaScript falsiness), classifies the span as
manual, and clears nothing. -/
theorem claim_c5_counterexample :
    strContains "x" "" = true ∧
    classifySpan ⟨false, some ""⟩ "x" = (false, ⟨false, some ""⟩) := by
  decide

/-- Claim C5 (amended): for every inserted span, the classifier decides by
this priority: (1) if isAcceptingSuggestion is true, classify AI and clear
only that flag; (2) else if lastOfferedSuggestionText is set to a NON-EMPTY
string and the span contains it, classify AI and clear the suggestion;
(3) else the result is exactly the shape heuristic — the span contains a line
break or its trimmed form ends with one of the six closing characters — with
the classifier state unchanged. -/
theorem claim_c5_classifier_priority (cs : ClassifierState) (text : String) :
    (cs.isAcceptingSuggestion = true →
        classifySpan cs text = (true, ⟨false, cs.lastCopilotSuggestion⟩)) ∧
    (cs.isAcceptingSuggestion = false →
        ∀ t, cs.lastCopilotSuggestion = some t → ¬ t = "" → strContains text t = true →
          classifySpan cs text = (true, ⟨false, none⟩)) ∧
    (cs.isAcceptingSuggestion = false →
        (∀ t, cs.lastCopilotSuggestion = some t → ¬ t = "" → strContains text t = false) →
          classifySpan cs text
            = (strContains text "\n" || isCompleteStatement text, cs)) := by
  obtain ⟨acc, sugg⟩ := cs
  refine ⟨?_, ?_, ?_⟩
  · intro h
    cases h
    unfold classifySpan
    simp
  · intro h t ht hne hc
    cases h
    cases ht
    unfold classifySpan
    simp only [Bool.false_eq_true, if_false]
    have hnee : t.data.isEmpty = false := by
      cases t with
      | mk data =>
        cases data with
        | nil => exact absurd rfl hne
        | cons c cs => rfl
    rw [hnee]
    simp [hc]
  · intro h hall
    cases h
    unfold classifySpan
    simp only [Bool.false_eq_true, if_false]
    cases sugg with
    | none => rfl
    | some t =>
      by_cases hte : t = ""
      · subst hte
        simp only [show (!(("" : String).data.isEmpty) && strContains text "") = false from
          rfl, Bool.false_eq_true, if_false]
      · have := hall t rfl hte
        simp [this]

/-- Claim C5, witness: the three branches at concrete inputs — the accepting
flag consumed once; a span containing the recorded non-empty suggestion
classified AI with the suggestion cleared; a span matching neither signal
classified by the shape heuristic with state unchanged. -/
theorem claim_c5_witness :
    classifySpan ⟨true, some "ab"⟩ "xy" = (true, ⟨false, some "ab"⟩) ∧
    classifySpan ⟨false, some "ab"⟩ "xaby" = (true, ⟨false, none⟩) ∧
    classifySpan ⟨false, some "ab"⟩ "q;" = (true, ⟨false, some "ab"⟩) := by
  refine ⟨(claim_c5_classifier_priority ⟨true, some "ab"⟩ "xy").1 rfl,
          (claim_c5_classifier_priority ⟨false, some "ab"⟩ "xaby").2.1 rfl "ab" rfl
            (by decide) (by decide),
          ?_⟩
  have h := (claim_c5_classifier_priority ⟨false, some "ab"⟩ "q;").2.2 rfl ?_
  · rw [h]
    decide
  · intro t ht hne
    simp only at ht
    cases ht
    decide

/-! ## Claim C6: the aggregate counters equal the per-file sums -/

/-- State exhibiting that the sums alone are not inductive: the aggregate
equals the per-file sums, but the record violates the bounds (copilot 7 with
total 0). -/
def c6CexState : EngState :=
  { stats := { totalLines := 0, copilotLines := 7, lastUpdated := "t0",
               fileStats := [("/a.ts", ⟨0, 7⟩)] },
    lastSavedStats := { totalLines := 0, copilotLines := 0, lastUpdated := "t0",
                        fileStats := [] },
    pendingCopilotLines := 5,
    classifier := { isAcceptingSuggestion := false, lastCopilotSuggestion := none } }

/-- Claim C6, counterexample to the claim as stated: both sums hold in
`c6CexState`, yet after one `updateFileStats` call the aggregate copilotLines
no longer equals the per-file sum, because the pending-consumption branch
overwrites the per-file copilotLines while adding to the aggregate — coherent
only when the record satisfied the bounds invariant, which `c6CexState`
violates. -/
theorem claim_c6_counterexample :
    SumsInv c6CexState ∧
    ¬ SumsInv (updateFileStats defaultTrackedExtensions c6CexState "/a.ts" 3 "t1").1 := by
  decide

/-- Claim C6 (amended): after every completed mutating operation, the
aggregate totalLines equals the sum of per-file totalLines and the aggregate
copilotLines equals the sum of per-file copilotLines, assuming that in the
starting state both sums held and every record satisfied
`0 ≤ copilotLines ≤ totalLines`. -/
theorem claim_c6_sums_preserved (cfg : List String) (s : EngState)
    (path now : String) (changes : List String) (lineCount : Nat) (hasRoot : Bool)
    (hb : BoundsInv s) (hs : SumsInv s) :
    SumsInv (changeHandler cfg s path changes lineCount now).1 ∧
    SumsInv (updateFileStats cfg s path lineCount now).1 ∧
    SumsInv (clearStats hasRoot s now).1 :=
  ⟨(changeHandler_preserves cfg s path changes lineCount now hb.1 hs).2,
   (updateFileStats_preserves cfg s path lineCount now hb.1 hs).2,
   (clearStats_preserves hasRoot s now).2⟩

/-- Claim C6, witness: the amended theorem applied to the initial state and a
concrete tracked edit. -/
theorem claim_c6_witness :
    SumsInv (changeHandler defaultTrackedExtensions (initState "t0") "/b.ts"
      ["y;"] 2 "t1").1 ∧
    SumsInv (updateFileStats defaultTrackedExtensions (initState "t0") "/b.ts" 2 "t1").1 ∧
    SumsInv (clearStats true (initState "t0") "t1").1 :=
  claim_c6_sums_preserved defaultTrackedExtensions (initState "t0") "/b.ts" "t1"
    ["y;"] 2 true (by decide) (by decide)

/-! ## Claim C7: idempotence of updateTotals -/

/-- Claim C7: calling updateFileStats twice in a row for the same file with
the same line count produces, on the second call, no state change at all and
no persistence effect (no quick-reload write, no debounce reschedule). -/
theorem claim_c7_updateTotals_idempotent (cfg : List String) (s : EngState)
    (path : String) (lineCount : Nat) (now1 now2 : String) :
    updateFileStats cfg (updateFileStats cfg s path lineCount now1).1 path lineCount now2
      = ((updateFileStats cfg s path lineCount now1).1, noEffects) := by
  unfold updateFileStats
  cases htr : shouldTrackFile cfg path with
  | false => simp [htr]
  | true =>
    simp only [htr, if_true]
    obtain ⟨c, hc⟩ := core_total_after s path now1 (lineCount : Int)
    exact core_noop_existing _ path now2 _ ⟨(lineCount : Int), c⟩ hc rfl

/-! ## Claim C8: excluded paths touch nothing -/

/-- Claim C8: for every path rejected by shouldTrackFile — in particular any
path under a node_modules directory and the snapshot file path, for every
configured extension list — neither the change entry point nor the open entry
point (updateFileStats) creates a record, mutates any counter, or triggers
persistence: both return the state unchanged with no effects. -/
theorem claim_c8_excluded_untouched (cfg : List String) (s : EngState)
    (path now : String) (changes : List String) (lineCount : Nat)
    (h : shouldTrackFile cfg path = false ∨
         strContains path "/node_modules/" = true ∨
         strContains path "\\node_modules\\" = true ∨
         strEndsWith path ".copilot-stats.json" = true) :
    shouldTrackFile cfg path = false ∧
    changeHandler cfg s path changes lineCount now = (s, noEffects) ∧
    updateFileStats cfg s path lineCount now = (s, noEffects) := by
  have hf : shouldTrackFile cfg path = false := by
    rcases h with h | h
    · exact h
    · exact shouldTrackFile_excluded cfg path h
  refine ⟨hf, ?_, ?_⟩
  · unfold changeHandler
    simp only [hf, Bool.false_eq_true, if_false]
  · unfold updateFileStats
    simp only [hf, Bool.false_eq_true, if_false]

/-- Claim C8, witness: a node_modules path with a tracked extension is
rejected and both entry points leave the initial state untouched. -/
theorem claim_c8_witness :
    shouldTrackFile defaultTrackedExtensions "/r/node_modules/a.ts" = false ∧
    changeHandler defaultTrackedExtensions (initState "t0") "/r/node_modules/a.ts"
      ["x;"] 3 "t1" = (initState "t0", noEffects) ∧
    updateFileStats defaultTrackedExtensions (initState "t0") "/r/node_modules/a.ts"
      3 "t1" = (initState "t0", noEffects) :=
  claim_c8_excluded_untouched defaultTrackedExtensions (initState "t0")
    "/r/node_modules/a.ts" "t1" ["x;"] 3 (Or.inr (Or.inl (by decide)))

/-! ## Claim C9: classification is per event, counting every span -/

/-- Claim C9: when the stateful span classification of an edit event returns
true, the delta applied to the per-file and aggregate copilot counters is the
sum of countNonEmptyLines over EVERY inserted span of the event — including
spans that would individually have been classified manual. Stated for a
tracked file with positive stored total whose line count is unchanged by the
event and whose candidate fits under the total. -/
theorem claim_c9_event_level_attribution (cfg : List String) (s : EngState)
    (path now : String) (changes : List String) (c : Int) (n : Nat)
    (htr : shouldTrackFile cfg path = true)
    (hcl : (someClassify s.classifier changes).1 = true)
    (hfind : lookupFS s.stats.fileStats path = some ⟨(n : Int), c⟩)
    (hn : 0 < n)
    (hpos : 0 < sumNewLines changes)
    (hfit : c + (sumNewLines changes : Int) ≤ (n : Int)) :
    lookupFS (changeHandler cfg s path changes n now).1.stats.fileStats path
      = some ⟨(n : Int), c + (sumNewLines changes : Int)⟩ ∧
    (changeHandler cfg s path changes n now).1.stats.copilotLines
      = s.stats.copilotLines + (sumNewLines changes : Int) := by
  have hk : (0 : Int) < (sumNewLines changes : Int) := by exact_mod_cast hpos
  have hn2 : ¬ ((n : Int) = 0) := by
    have : (0 : Int) < (n : Int) := by exact_mod_cast hn
    omega
  unfold changeHandler
  simp only [htr, if_true, hcl]
  rw [applyAiLines_commit { s with classifier := (someClassify s.classifier changes).2 }
    path now (sumNewLines changes : Int) (n : Int) c hfind hk hn2 hfit]
  rw [updateFileStats_noop cfg _ path n now htr
    ⟨(n : Int), c + (sumNewLines changes : Int)⟩ (lookupFS_setFS_self _ _ _) rfl]
  exact ⟨lookupFS_setFS_self _ _ _, rfl⟩

/-- State for the C9 witness: suggestion acceptance pending, one tracked file
with total 10 and copilot 2. -/
def c9State : EngState :=
  { stats := { totalLines := 12, copilotLines := 2, lastUpdated := "t0",
               fileStats := [("/a.ts", ⟨10, 2⟩)] },
    lastSavedStats := { totalLines := 0, copilotLines := 0, lastUpdated := "t0",
                        fileStats := [] },
    pendingCopilotLines := 0,
    classifier := { isAcceptingSuggestion := true, lastCopilotSuggestion := none } }

/-- Claim C9, witness: an event with two spans, the first consuming the
accepting flag (2 non-empty lines), the second individually manual (the
single line x, no line break, no closing character) — yet all 3 lines are
attributed, giving copilot 5. -/
theorem claim_c9_witness :
    lookupFS (changeHandler defaultTrackedExtensions c9State "/a.ts" ["a\n b;", "x"] 10
        "t1").1.stats.fileStats "/a.ts" = some ⟨10, 5⟩ ∧
    (changeHandler defaultTrackedExtensions c9State "/a.ts" ["a\n b;", "x"] 10
        "t1").1.stats.copilotLines = 5 := by
  exact claim_c9_event_level_attribution defaultTrackedExtensions c9State "/a.ts" "t1"
    ["a\n b;", "x"] 2 10 (by decide) (by decide) (by decide) (by decide) (by decide)
    (by decide)

/-! ## Claim C10: pending attribution is session-global, not file-bound -/

/-- Claim C10: pending attribution deposited by an edit event on one file
(with zero stored total) is consumed by whichever tracked file next
transitions from total 0 to a positive total — stated for an arbitrary file
B, equal to the depositing file A or not, which then receives
min(PendingAttribution, newTotal) copilot lines while the pending counter
resets to 0. -/
theorem claim_c10_pending_not_file_bound (cfg : List String) (s : EngState)
    (pathA pathB now1 now2 : String) (changes : List String) (n : Nat)
    (htrA : shouldTrackFile cfg pathA = true) (htrB : shouldTrackFile cfg pathB = true)
    (hA : lookupFS s.stats.fileStats pathA = none)
    (hB : lookupFS s.stats.fileStats pathB = none)
    (hacc : s.classifier.isAcceptingSuggestion = true)
    (hp : 0 ≤ s.pendingCopilotLines)
    (hk : 0 < sumNewLines changes)
    (hn : 0 < n) :
    (changeHandler cfg s pathA changes 0 now1).1.pendingCopilotLines
      = s.pendingCopilotLines + (sumNewLines changes : Int) ∧
    lookupFS (updateFileStats cfg (changeHandler cfg s pathA changes 0 now1).1
        pathB n now2).1.stats.fileStats pathB
      = some ⟨(n : Int), min (s.pendingCopilotLines + (sumNewLines changes : Int))
          (n : Int)⟩ ∧
    (updateFileStats cfg (changeHandler cfg s pathA changes 0 now1).1
        pathB n now2).1.pendingCopilotLines = 0 := by
  have hk2 : (0 : Int) < (sumNewLines changes : Int) := by exact_mod_cast hk
  have hn2 : (0 : Int) < (n : Int) := by exact_mod_cast hn
  obtain ⟨t, rest, hchanges⟩ : ∃ t rest, changes = t :: rest := by
    cases changes with
    | nil => simp [sumNewLines] at hk
    | cons t rest => exact ⟨t, rest, rfl⟩
  subst hchanges
  have hcl := someClassify_accepting s.classifier t rest hacc
  have hch : (changeHandler cfg s pathA (t :: rest) 0 now1).1
      = { stats := { s.stats with fileStats := setFS s.stats.fileStats pathA ⟨0, 0⟩ },
          lastSavedStats := s.lastSavedStats,
          pendingCopilotLines := s.pendingCopilotLines + (sumNewLines (t :: rest) : Int),
          classifier := { s.classifier with isAcceptingSuggestion := false } } := by
    unfold changeHandler
    simp only [htrA, if_true, hcl]
    unfold applyAiLines
    simp only [hA, Option.isNone_none, if_true, lookupFS_setFS_self, Option.getD_some]
    rw [if_pos hk2]
    dsimp only
    rw [updateFileStats_noop cfg
      { stats := { s.stats with fileStats := setFS s.stats.fileStats pathA ⟨0, 0⟩ },
        lastSavedStats := s.lastSavedStats,
        pendingCopilotLines := s.pendingCopilotLines + (sumNewLines (t :: rest) : Int),
        classifier := { s.classifier with isAcceptingSuggestion := false } }
      pathA 0 now1 htrA ⟨0, 0⟩ (lookupFS_setFS_self _ _ _) rfl]
  rw [hch]
  refine ⟨rfl, ?_, ?_⟩
  · unfold updateFileStats
    simp only [htrB, if_true]
    refine (core_pending_consume _ pathB now2 (n : Int) ?_ (by dsimp only; omega) hn2).1
    by_cases hab : pathB = pathA
    · subst hab
      right
      exact lookupFS_setFS_self _ _ _
    · left
      dsimp only
      rw [lookupFS_setFS_ne _ hab]
      exact hB
  · unfold updateFileStats
    simp only [htrB, if_true]
    refine (core_pending_consume _ pathB now2 (n : Int) ?_ (by dsimp only; omega) hn2).2
    by_cases hab : pathB = pathA
    · subst hab
      right
      exact lookupFS_setFS_self _ _ _
    · left
      dsimp only
      rw [lookupFS_setFS_ne _ hab]
      exact hB

/-- Fresh session state with a pending suggestion acceptance, for the C10
witness. -/
def c10State : EngState :=
  { stats := { totalLines := 0, copilotLines := 0, lastUpdated := "t0", fileStats := [] },
    lastSavedStats := { totalLines := 0, copilotLines := 0, lastUpdated := "t0",
                        fileStats := [] },
    pendingCopilotLines := 0,
    classifier := { isAcceptingSuggestion := true, lastCopilotSuggestion := none } }

/-- Claim C10, witness: three AI lines recorded against file A (total 0)
are consumed by file B when B transitions from 0 to total 2; B receives
min(3, 2) = 2 copilot lines and pending returns to 0. -/
theorem claim_c10_witness :
    (changeHandler defaultTrackedExtensions c10State "/a.ts" ["x\ny\nz"] 0
        "t1").1.pendingCopilotLines = 3 ∧
    lookupFS (updateFileStats defaultTrackedExtensions
        (changeHandler defaultTrackedExtensions c10State "/a.ts" ["x\ny\nz"] 0 "t1").1
        "/b.ts" 2 "t2").1.stats.fileStats "/b.ts" = some ⟨2, 2⟩ ∧
    (updateFileStats defaultTrackedExtensions
        (changeHandler defaultTrackedExtensions c10State "/a.ts" ["x\ny\nz"] 0 "t1").1
        "/b.ts" 2 "t2").1.pendingCopilotLines = 0 := by
  exact claim_c10_pending_not_file_bound defaultTrackedExtensions c10State "/a.ts" "/b.ts"
    "t1" "t2" ["x\ny\nz"] 2 (by decide) (by decide) (by decide) (by decide) (by decide)
    (by decide) (by decide) (by decide)

end CopilotTracker
